import Mathlib

/-!
Shallow embedding of the `mongo-unit-of-work` data-access layer:
the unit-of-work session/transaction lifecycle (`src/uow/UnitOfWork.ts`)
and the cache-aside repository decorator
(`src/uow/BaseRepositoryWithCache.ts` over `src/uow/BaseRepository.ts`).

Entities are documents with a string `_id` and flat string fields, so the
`flatObj` helper used by `patch` is the identity on them.  Filters are
modelled as an optional string `_id` (present exactly when the JS filter
carries `_id` of type `string`) plus the remaining key/value pairs.
The mongo collection is modelled as the list of stored documents; each
repository operation returns its result, the new state and a trace of
observable events (store reads/writes, cache accesses, invalidations with
their `localOnly` flag, and change-event emissions).
-/

namespace MongoUow

/-- A stored document: string id plus flat string fields (`IEntity`). -/
structure Entity where
  _id : String
  fields : List (String × String)
deriving DecidableEq

/-- A loosely-typed mongo filter: `fid` is the `_id` key when it is present
with a string value (`typeof filter._id === 'string'`); `other` holds the
remaining keys. -/
structure Filter where
  fid : Option String
  other : List (String × String)
deriving DecidableEq

/-- Number of keys of the JS filter object (`Object.keys(filter).length`). -/
def Filter.keysCount (f : Filter) : Nat :=
  (match f.fid with
   | some _ => 1
   | none => 0) + f.other.length

/-- A `Partial<T>` patch document: optional `_id`, and fields whose value is
either a string or `undefined`/`null` (modelled as `none`, which `patch`
turns into a `$unset`). -/
structure PartialEntity where
  _id : Option String
  fields : List (String × Option String)
deriving DecidableEq

/-- The `$set` / `$unset` update document built by `patch` and consumed by
`findOneAndUpdate`. -/
structure Update where
  set : List (String × String)
  unset : List String
deriving DecidableEq

/-- A mongo projection, abstracted to the projected field names. -/
abbrev Proj := List String

/-- `FindOneAndUpdateOption`: the decorator (driver v3 era) reads
`returnOriginal`; `BaseRepository.patch` (driver v4 era) passes
`returnDocument: 'after'`.  The modelled collection honours both. -/
structure FindOneAndUpdateOption where
  returnOriginal : Option Bool
  returnDocument : Option String
  upsert : Option Bool
deriving DecidableEq

/-- Association-list lookup (first binding wins), used for the cache indices
and the unit-of-work repository registry. -/
def lookupA {α : Type} : List (String × α) → String → Option α
  | [], _ => none
  | (k, v) :: rest, key => if k = key then some v else lookupA rest key

/-- Remove every binding of `key` (cache `invalidateKey`). -/
def eraseKey {α : Type} (l : List (String × α)) (key : String) : List (String × α) :=
  l.filter fun kv => kv.1 ≠ key

/-- Overwrite the binding of `key` (cache `set` / `setQuery`). -/
def setA {α : Type} (l : List (String × α)) (key : String) (v : α) : List (String × α) :=
  (key, v) :: eraseKey l key

/-- Observable events of one repository call. -/
inductive Ev
  | invKey (id : String) (localOnly : Bool)
  | invAll (localOnly : Bool)
  | cacheGet (id : String)
  | cacheSet (id : String)
  | cacheGetQuery (q : String)
  | cacheSetQuery (q : String)
  | storeRead
  | storeWrite
  | emitAdd (e : Entity)
  | emitUpdate (e : Entity)
  | emitDelete (e : Entity)
deriving DecidableEq

/-- State threaded through repository operations: the collection's documents
plus the two cache indices of the cache-aside decorator
(`byId : id → entity`, `byQuery : serialized filter → list of (id, entity)`). -/
structure RepoState where
  docs : List Entity
  byId : List (String × Entity)
  byQuery : List (String × List (String × Entity))
deriving DecidableEq

/-- Does a document satisfy a filter (equality matching on `_id` and on the
other keys)? -/
def matchesF (f : Filter) (e : Entity) : Bool :=
  (match f.fid with
   | some i => e._id = i
   | none => true)
  && f.other.all fun kv => lookupA e.fields kv.1 = some kv.2

/-- Apply a `$set`/`$unset` update to a document; `_id` is immutable. -/
def applyUpdate (u : Update) (e : Entity) : Entity :=
  { _id := e._id,
    fields := u.set ++ e.fields.filter fun kv =>
      !((u.set.map Prod.fst).contains kv.1) && !(u.unset.contains kv.1) }

/-- Apply an optional projection (kept abstract: `_id` plus listed fields). -/
def applyProjOpt (proj : Option Proj) (e : Entity) : Entity :=
  match proj with
  | none => e
  | some p => { _id := e._id, fields := e.fields.filter fun kv => p.contains kv.1 }

/-- Deterministic serialization of a filter (`JSON.stringify(filter)`). -/
def serializeFilter (f : Filter) : String :=
  (match f.fid with
   | some i => "_id:" ++ i ++ ";"
   | none => "") ++
  String.intercalate ";" (f.other.map fun kv => kv.1 ++ ":" ++ kv.2)

/-- `options && options.returnOriginal === false` (the decorator's check for
"return the post-update document", driver v3). -/
def returnOriginalFalse (o : Option FindOneAndUpdateOption) : Bool :=
  match o with
  | some oo => oo.returnOriginal = some false
  | none => false

/-- Does the modelled collection return the post-update document? -/
def returnAfterOf (o : Option FindOneAndUpdateOption) : Bool :=
  match o with
  | some oo => oo.returnOriginal = some false || oo.returnDocument = some "after"
  | none => false

/-- Is the upsert option set? -/
def upsertOf (o : Option FindOneAndUpdateOption) : Bool :=
  match o with
  | some oo => oo.upsert = some true
  | none => false

/-- `collection.findOneAndUpdate` body: update the first matching document,
returning the pre- or post-update document. -/
def fouGo (f : Filter) (u : Update) (after : Bool) : List Entity → Option Entity × List Entity
  | [] => (none, [])
  | d :: ds =>
    if matchesF f d then
      let d' := applyUpdate u d
      (some (if after then d' else d), d' :: ds)
    else
      let (r, ds') := fouGo f u after ds
      (r, d :: ds')

namespace BaseRepository

/-- `BaseRepository.add`: `insertOne`, emit `add`, return the item. -/
def add (st : RepoState) (item : Entity) : Entity × RepoState × List Ev :=
  (item, { st with docs := st.docs ++ [item] }, [Ev.storeWrite, Ev.emitAdd item])

/-- A JS error thrown by `collection.insertMany`: `writeErrors`, when present,
carries the `_id` of each failed op (`err.writeErrors.map(e => e.err.op._id)`). -/
structure JsError where
  writeErrors : Option (List String)
  msg : String
deriving DecidableEq

/-- `BaseRepository.addMany`: `insertMany` (its outcome is the external
collection's and is passed in as `resp`; `none` = success); on an error with
a non-empty `writeErrors` list, keep only the items whose `_id` is not among
the failed ids; any other error is rethrown.  `add` is emitted for each
returned item. -/
def addMany (st : RepoState) (items : List Entity) (resp : Option JsError) :
    Except JsError (List Entity) × RepoState × List Ev :=
  match resp with
  | none =>
    (.ok items, { st with docs := st.docs ++ items },
     Ev.storeWrite :: items.map Ev.emitAdd)
  | some err =>
    -- `if (err && err.writeErrors && err.writeErrors.length)`
    match err.writeErrors with
    | some ids =>
      if ids.length ≠ 0 then
        let resultItems := items.filter fun i => !(ids.contains i._id)
        (.ok resultItems, { st with docs := st.docs ++ resultItems },
         Ev.storeWrite :: resultItems.map Ev.emitAdd)
      else (.error err, st, [Ev.storeWrite])
    | none => (.error err, st, [Ev.storeWrite])

/-- `BaseRepository.findOne`: one store read, first matching document. -/
def findOne (st : RepoState) (f : Filter) (proj : Option Proj) :
    Option Entity × RepoState × List Ev :=
  ((st.docs.find? (matchesF f)).map (applyProjOpt proj), st, [Ev.storeRead])

/-- `BaseRepository.findById`: `collection.findOne({ _id: id })`. -/
def findById (st : RepoState) (id : String) (proj : Option Proj) :
    Option Entity × RepoState × List Ev :=
  ((st.docs.find? fun d => d._id = id).map (applyProjOpt proj), st, [Ev.storeRead])

/-- `BaseRepository.findMany`: one store read, all matching documents. -/
def findMany (st : RepoState) (f : Filter) (proj : Option Proj) :
    List Entity × RepoState × List Ev :=
  ((st.docs.filter (matchesF f)).map (applyProjOpt proj), st, [Ev.storeRead])

/-- `BaseRepository.findOneAndUpdate`: delegate to the collection; on no
match with `upsert`, insert a document built from the filter (its `_id` when
given, else a generated object id). -/
def findOneAndUpdate (st : RepoState) (f : Filter) (u : Update)
    (options : Option FindOneAndUpdateOption) : Option Entity × RepoState × List Ev :=
  let after := returnAfterOf options
  let (r, docs') := fouGo f u after st.docs
  match r with
  | some v => (some v, { st with docs := docs' }, [Ev.storeWrite])
  | none =>
    if upsertOf options then
      let nd := applyUpdate u { _id := f.fid.getD ("oid_" ++ toString st.docs.length), fields := f.other }
      ((if after then some nd else none), { st with docs := st.docs ++ [nd] }, [Ev.storeWrite])
    else (none, st, [Ev.storeWrite])

/-- The `$set` part `patch` builds: the defined (flattened) fields of the
item, with `_id` removed (`delete set._id`). -/
def patchSet (item : PartialEntity) : List (String × String) :=
  (item.fields.filterMap fun kv => kv.2.map fun v => (kv.1, v)).filter
    fun kv => kv.1 ≠ "_id"

/-- The `$unset` part `patch` builds: the keys whose value is
`undefined`/`null`. -/
def patchUnset (item : PartialEntity) : List String :=
  (item.fields.filter fun kv => kv.2 = none).map Prod.fst

/-- The options `patch` passes down: `{ upsert, returnDocument: 'after' }`. -/
def patchOpts (upsert : Bool) : FindOneAndUpdateOption :=
  { returnOriginal := none, returnDocument := some "after", upsert := some upsert }

/-- Body of `BaseRepository.patch`, parameterized by the dynamically
dispatched `this.findOneAndUpdate` (JS virtual call: on a cached repository
it resolves to the decorator's override).  Builds `$set` from the defined
fields (dropping `_id`) and `$unset` from the `undefined`/`null` ones,
rejects an empty update, then calls `this.findOneAndUpdate(filter, updateObj,
{ upsert, returnDocument: 'after' })` and emits `update` on a result. -/
def patchBody
    (fou : RepoState → Filter → Update → Option FindOneAndUpdateOption →
      Option Entity × RepoState × List Ev)
    (st : RepoState) (f : Filter) (item : PartialEntity) (upsert : Bool) :
    Except String (Option Entity) × RepoState × List Ev :=
  if patchSet item = [] ∧ patchUnset item = [] then (.error "No changes submited!", st, [])
  else
    let (result, st1, ev1) := fou st f { set := patchSet item, unset := patchUnset item }
      (some (patchOpts upsert))
    match result with
    | some r => (.ok (some r), st1, ev1 ++ [Ev.emitUpdate r])
    | none => (.ok none, st1, ev1)

/-- `BaseRepository.patch` on a plain repository (dispatches to the base
`findOneAndUpdate`). -/
def patch (st : RepoState) (f : Filter) (item : PartialEntity) (upsert : Bool) :
    Except String (Option Entity) × RepoState × List Ev :=
  patchBody findOneAndUpdate st f item upsert

end BaseRepository

namespace BaseRepositoryWithCache

/-- Cache backend `set` (`this.cache(item)` = `_cache.set(item._id, item)`). -/
def cache (st : RepoState) (item : Entity) : RepoState × List Ev :=
  ({ st with byId := setA st.byId item._id item }, [Ev.cacheSet item._id])

/-- Cache backend `invalidateKey(id, localOnly)`: the backend is external;
its in-process effect is modelled as dropping the `byId` binding. -/
def invalidateKey (st : RepoState) (id : String) (localOnly : Bool) : RepoState × List Ev :=
  ({ st with byId := eraseKey st.byId id }, [Ev.invKey id localOnly])

/-- Cache backend `invalidateAll(localOnly)`: drops both indices. -/
def invalidateAll (st : RepoState) (localOnly : Bool) : RepoState × List Ev :=
  ({ st with byId := [], byQuery := [] }, [Ev.invAll localOnly])

/-- `BaseRepositoryWithCache.add`: `super.add`, then cache the result. -/
def add (st : RepoState) (item : Entity) : Entity × RepoState × List Ev :=
  let (x, st1, ev1) := BaseRepository.add st item
  let (st2, ev2) := cache st1 x
  (x, st2, ev1 ++ ev2)

/-- `BaseRepositoryWithCache.findById`: with no projection, consult `byId`
(hit → no store round-trip); on a miss or with a projection read the store;
populate `byId` only on a non-projected result with a truthy `_id`. -/
def findById (st : RepoState) (id : String) (proj : Option Proj) :
    Option Entity × RepoState × List Ev :=
  match proj with
  | none =>
    match lookupA st.byId id with
    | some item => (some item, st, [Ev.cacheGet id])
    | none =>
      let (x, st1, ev1) := BaseRepository.findById st id none
      match x with
      | some e =>
        if e._id ≠ "" then
          let (st2, ev2) := cache st1 e
          (some e, st2, Ev.cacheGet id :: ev1 ++ ev2)
        else (some e, st1, Ev.cacheGet id :: ev1)
      | none => (none, st1, Ev.cacheGet id :: ev1)
  | some p => BaseRepository.findById st id (some p)

/-- The non-delegating part of `BaseRepositoryWithCache.findOne`: with no
projection, consult `byQuery[serialize(filter)]` (hit → first entry, no store
round-trip); on a miss read the store and, on a truthy-id result, store
`[(result._id, result)]` under the serialized filter.  With a projection the
cache is bypassed entirely. -/
def findOneRest (st : RepoState) (f : Filter) (proj : Option Proj) :
    Option Entity × RepoState × List Ev :=
  match proj with
  | none =>
    let query := serializeFilter f
    match lookupA st.byQuery query with
    | some results => ((results.map Prod.snd).head?, st, [Ev.cacheGetQuery query])
    | none =>
      let (results, st1, ev1) := BaseRepository.findOne st f none
      match results with
      | some r =>
        if r._id ≠ "" then
          (some r,
           { st1 with byQuery := setA st1.byQuery (serializeFilter f) [(r._id, r)] },
           Ev.cacheGetQuery query :: ev1 ++ [Ev.cacheSetQuery (serializeFilter f)])
        else (some r, st1, Ev.cacheGetQuery query :: ev1)
      | none => (none, st1, Ev.cacheGetQuery query :: ev1)
  | some p => BaseRepository.findOne st f (some p)

/-- `BaseRepositoryWithCache.findOne`: an exact single-key string-id filter
(`typeof filter._id === 'string' && Object.keys(filter).length === 1`)
delegates to `findById`; anything else goes through `findOneRest`. -/
def findOne (st : RepoState) (f : Filter) (proj : Option Proj) :
    Option Entity × RepoState × List Ev :=
  match f.fid with
  | some i => if f.other = [] then findById st i proj else findOneRest st f proj
  | none => findOneRest st f proj

/-- The `findMany` population loop: `get(item._id)`, and `cache(item)` when
absent. -/
def cacheMissing : RepoState → List Entity → RepoState × List Ev
  | st, [] => (st, [])
  | st, e :: rest =>
    let hit := (lookupA st.byId e._id).isSome
    let (st1, ev1) :=
      if hit then (st, ([] : List Ev))
      else ({ st with byId := setA st.byId e._id e }, [Ev.cacheSet e._id])
    let (st2, ev2) := cacheMissing st1 rest
    (st2, Ev.cacheGet e._id :: ev1 ++ ev2)

/-- `BaseRepositoryWithCache.findMany`: same `byQuery` strategy over the full
result list; on a miss with a non-empty result, index the list under the
serialized filter and populate `byId` for entities not already present.
With a projection the cache is bypassed entirely. -/
def findMany (st : RepoState) (f : Filter) (proj : Option Proj) :
    List Entity × RepoState × List Ev :=
  match proj with
  | none =>
    let query := serializeFilter f
    match lookupA st.byQuery query with
    | some results => (results.map Prod.snd, st, [Ev.cacheGetQuery query])
    | none =>
      let (results, st1, ev1) := BaseRepository.findMany st f none
      if results.length > 0 then
        let st2 := { st1 with
          byQuery := setA st1.byQuery (serializeFilter f) (results.map fun x => (x._id, x)) }
        let (st3, ev3) := cacheMissing st2 results
        (results, st3,
         Ev.cacheGetQuery query :: ev1 ++ [Ev.cacheSetQuery (serializeFilter f)] ++ ev3)
      else (results, st1, Ev.cacheGetQuery query :: ev1)
  | some p => BaseRepository.findMany st f (some p)

/-- `BaseRepositoryWithCache.findOneAndUpdate`: `super.findOneAndUpdate`;
on a result, `invalidateKey(result._id, false)` and, when
`options.returnOriginal === false`, cache the result; on no result,
`invalidateKey(filter._id, false)` only when the filter carries a string id. -/
def findOneAndUpdate (st : RepoState) (f : Filter) (u : Update)
    (options : Option FindOneAndUpdateOption) : Option Entity × RepoState × List Ev :=
  let (result, st1, ev1) := BaseRepository.findOneAndUpdate st f u options
  match result with
  | some r =>
    let (st2, ev2) := invalidateKey st1 r._id false
    let (st3, ev3) :=
      if returnOriginalFalse options then cache st2 r else (st2, ([] : List Ev))
    (some r, st3, ev1 ++ ev2 ++ ev3)
  | none =>
    match f.fid with
    | some i =>
      let (st2, ev2) := invalidateKey st1 i false
      (none, st2, ev1 ++ ev2)
    | none => (none, st1, ev1)

/-- `BaseRepositoryWithCache.patch`: invalidate first — the filter's string
id, else the item's string id, else the entire cache, always with
`localOnly = false` — then `super.patch`, whose body performs the store
mutation through the dynamically dispatched (overridden) `findOneAndUpdate`. -/
def patch (st : RepoState) (f : Filter) (item : PartialEntity) (upsert : Bool) :
    Except String (Option Entity) × RepoState × List Ev :=
  let (st1, ev1) :=
    match f.fid with
    | some i => invalidateKey st i false
    | none =>
      match item._id with
      | some j => invalidateKey st j false
      | none => invalidateAll st false
  let (x, st2, ev2) := BaseRepository.patchBody findOneAndUpdate st1 f item upsert
  (x, st2, ev1 ++ ev2)

end BaseRepositoryWithCache

/-! ## Unit of Work (`src/uow/UnitOfWork.ts`) -/

/-- A `ClientSession`: identity plus transaction flag. -/
structure Session where
  sid : Nat
  inTransaction : Bool
deriving DecidableEq

/-- What the pluggable repository factory returns: each invocation constructs
a fresh instance (`instId` is its identity) bound to a name and an optional
session (held by reference, i.e. by `sid`). -/
structure RepoInst where
  instId : Nat
  name : String
  sessionId : Option Nat
deriving DecidableEq

/-- `IUnitOfWorkOptions`. -/
structure UoWOptions where
  useTransactions : Bool
deriving DecidableEq

/-- Unit-of-work state: the memoized repository registry keyed by
`name + (withTransaction ? '_w' : '')`, the lazily created session, and the
client's counters generating fresh session/instance identities. -/
structure UoWState where
  _repos : List (String × RepoInst)
  _session : Option Session
  _options : UoWOptions
  nextSession : Nat
  nextInst : Nat
deriving DecidableEq

/-- Observable unit-of-work events. -/
inductive UEv
  | startSession (sid : Nat)
  | startTransaction (sid : Nat)
  | commitTransaction (sid : Nat)
  | abortTransaction (sid : Nat)
  | endSession (sid : Nat)
  | factoryCall (name : String) (sid : Option Nat)
deriving DecidableEq

/-- A fresh unit of work (constructor with no options:
`useTransactions: true`). -/
def uow0 : UoWState :=
  { _repos := [], _session := none, _options := { useTransactions := true },
    nextSession := 0, nextInst := 0 }

namespace UnitOfWork

/-- `getSession`: return the memoized session, or `client.startSession()`
followed by `startTransaction()` on first use. -/
def getSession (s : UoWState) : Session × UoWState × List UEv :=
  match s._session with
  | some ss => (ss, s, [])
  | none =>
    let ss : Session := { sid := s.nextSession, inTransaction := true }
    (ss, { s with _session := some ss, nextSession := s.nextSession + 1 },
     [UEv.startSession ss.sid, UEv.startTransaction ss.sid])

/-- `getRepository(name, withTransaction)`: memoized on the key
`name + (withTransaction ? '_w' : '')`; on a miss, obtain the shared session
(only when `withTransaction`) and invoke the factory. -/
def getRepository (s : UoWState) (nm : String) (withTransaction : Bool) :
    RepoInst × UoWState × List UEv :=
  let key := nm ++ (if withTransaction then "_w" else "")
  match lookupA s._repos key with
  | some repo => (repo, s, [])
  | none =>
    let (sessOpt, s1, ev1) :=
      if withTransaction then
        let (ss, s', ev) := getSession s
        (some ss.sid, s', ev)
      else (none, s, ([] : List UEv))
    let repo : RepoInst := { instId := s1.nextInst, name := nm, sessionId := sessOpt }
    (repo,
     { s1 with _repos := s1._repos ++ [(key, repo)], nextInst := s1.nextInst + 1 },
     ev1 ++ [UEv.factoryCall nm sessOpt])

/-- `getRepository(name)` with the defaulted transaction flag. -/
def getRepositoryD (s : UoWState) (nm : String) : RepoInst × UoWState × List UEv :=
  getRepository s nm s._options.useTransactions

/-- `commit()`: commit only when a session exists and is in a transaction. -/
def commit (s : UoWState) : UoWState × List UEv :=
  match s._session with
  | some ss =>
    if ss.inTransaction then
      ({ s with _session := some { ss with inTransaction := false } },
       [UEv.commitTransaction ss.sid])
    else (s, [])
  | none => (s, [])

/-- `rollback()`: abort only when a session exists and is in a transaction. -/
def rollback (s : UoWState) : UoWState × List UEv :=
  match s._session with
  | some ss =>
    if ss.inTransaction then
      ({ s with _session := some { ss with inTransaction := false } },
       [UEv.abortTransaction ss.sid])
    else (s, [])
  | none => (s, [])

/-- `dispose()`: clear the registry; if no session exists return; if the
session is mid-transaction roll back first; then `endSession`, whose callback
error (`endErr`, reported by the external driver) is propagated. -/
def dispose (s : UoWState) (endErr : Option String) :
    Except String Unit × UoWState × List UEv :=
  let s0 := { s with _repos := ([] : List (String × RepoInst)) }
  match s0._session with
  | none => (.ok (), s0, [])
  | some ss =>
    let (s1, ev1) := if ss.inTransaction then rollback s0 else (s0, ([] : List UEv))
    match endErr with
    | some m => (.error m, s1, ev1 ++ [UEv.endSession ss.sid])
    | none => (.ok (), s1, ev1 ++ [UEv.endSession ss.sid])

/-- Run a sequence of `getRepository` requests. -/
def runGets : UoWState → List (String × Bool) → UoWState × List UEv
  | s, [] => (s, [])
  | s, (nm, wt) :: rest =>
    let (_, s1, ev1) := getRepository s nm wt
    let (s2, ev2) := runGets s1 rest
    (s2, ev1 ++ ev2)

end UnitOfWork

/-- Count the events satisfying a predicate. -/
def countU (p : UEv → Bool) (tr : List UEv) : Nat := (tr.filter p).length

/-- Is this a `startSession` event? -/
def isStartSession : UEv → Bool
  | .startSession _ => true
  | _ => false

/-- Is this a `startTransaction` event? -/
def isStartTransaction : UEv → Bool
  | .startTransaction _ => true
  | _ => false

/-- Is this a store read? -/
def isStoreRead : Ev → Bool
  | .storeRead => true
  | _ => false

/-- Is this a cache invalidation (`invalidateKey` or `invalidateAll`)? -/
def isInvEv : Ev → Bool
  | .invKey _ _ => true
  | .invAll _ => true
  | _ => false

/-- Is this any cache access (read, write or invalidation)? -/
def isCacheEv : Ev → Bool
  | .cacheGet _ => true
  | .cacheSet _ => true
  | .cacheGetQuery _ => true
  | .cacheSetQuery _ => true
  | .invKey _ _ => true
  | .invAll _ => true
  | _ => false

/-- Is this an `add` change-event emission? -/
def isEmitAdd : Ev → Bool
  | .emitAdd _ => true
  | _ => false

/-- The invalidation `patch` chooses up front: the filter's string id, else
the item's string id, else the whole cache; always `localOnly = false`. -/
def branchInv (f : Filter) (item : PartialEntity) : Ev :=
  match f.fid with
  | some i => Ev.invKey i false
  | none =>
    match item._id with
    | some j => Ev.invKey j false
    | none => Ev.invAll false

/-- 1 when a session exists, else 0. -/
def sessN (s : UoWState) : Nat := if s._session.isSome then 1 else 0

/-- A unit-of-work state where every registered repository holding a session
holds the unit of work's one current session. -/
def SessOK (s : UoWState) : Prop :=
  ∀ p ∈ s._repos, p.2.sessionId = none ∨
    ∃ ss, s._session = some ss ∧ p.2.sessionId = some ss.sid

/-! ## Helper lemmas -/

theorem lookupA_setA_self {α : Type} (l : List (String × α)) (k : String) (v : α) :
    lookupA (setA l k v) k = some v := by
  simp [setA, lookupA]

theorem lookupA_append_none {α : Type} (l1 l2 : List (String × α)) (k : String)
    (h : lookupA l1 k = none) : lookupA (l1 ++ l2) k = lookupA l2 k := by
  induction l1 with
  | nil => simp
  | cons kv rest ih =>
    obtain ⟨k1, v1⟩ := kv
    simp only [lookupA, List.cons_append] at h ⊢
    split at h
    · exact absurd h (by simp)
    · next hne =>
      rw [if_neg hne]
      exact ih h

theorem lookupA_none_not_mem {α : Type} (l : List (String × α)) (k : String)
    (h : lookupA l k = none) : k ∉ l.map Prod.fst := by
  induction l with
  | nil => simp
  | cons kv rest ih =>
    obtain ⟨k1, v1⟩ := kv
    simp only [lookupA] at h
    split at h
    · exact absurd h (by simp)
    · next hne =>
      simp only [List.map_cons, List.mem_cons]
      rintro (h1 | h2)
      · exact hne h1.symm
      · exact ih h h2

theorem filter_isEmitAdd_map (l : List Entity) :
    (l.map Ev.emitAdd).filter isEmitAdd = l.map Ev.emitAdd := by
  induction l with
  | nil => rfl
  | cons e rest ih => simp [isEmitAdd, List.filter, ih]

/-! ## Claims -/

/-- C7: after a successful `add` of an entity, a `findById` of its id with no
projection returns that entity from the `byId` cache, and neither call's path
performs a store read (the only store event is `add`'s write). -/
theorem c7_add_findById_roundtrip (st : RepoState) (e : Entity) :
    (BaseRepositoryWithCache.add st e).1 = e ∧
    (BaseRepositoryWithCache.findById (BaseRepositoryWithCache.add st e).2.1 e._id none).1
      = some e ∧
    ((BaseRepositoryWithCache.add st e).2.2
      ++ (BaseRepositoryWithCache.findById (BaseRepositoryWithCache.add st e).2.1
            e._id none).2.2).filter isStoreRead = [] := by
  refine ⟨rfl, ?_, ?_⟩
  · simp [BaseRepositoryWithCache.add, BaseRepositoryWithCache.findById,
      BaseRepositoryWithCache.cache, BaseRepository.add, lookupA_setA_self]
  · simp [BaseRepositoryWithCache.add, BaseRepositoryWithCache.findById,
      BaseRepositoryWithCache.cache, BaseRepository.add, lookupA_setA_self,
      List.filter, isStoreRead]

/-- C8: every projected read (`findOne`, `findById`, `findMany` with a
projection) leaves the whole repository state — in particular both cache
indices — unchanged and performs no cache access at all: the result comes
solely from the store. -/
theorem c8_projected_reads_bypass_cache (st : RepoState) (f : Filter) (id : String)
    (p : Proj) :
    (BaseRepositoryWithCache.findOne st f (some p)).2.1 = st ∧
    ((BaseRepositoryWithCache.findOne st f (some p)).2.2).filter isCacheEv = [] ∧
    (BaseRepositoryWithCache.findById st id (some p)).2.1 = st ∧
    ((BaseRepositoryWithCache.findById st id (some p)).2.2).filter isCacheEv = [] ∧
    (BaseRepositoryWithCache.findMany st f (some p)).2.1 = st ∧
    ((BaseRepositoryWithCache.findMany st f (some p)).2.2).filter isCacheEv = [] := by
  refine ⟨?_, ?_, rfl, by simp [BaseRepositoryWithCache.findById, BaseRepository.findById,
    List.filter, isCacheEv], rfl, by simp [BaseRepositoryWithCache.findMany,
    BaseRepository.findMany, List.filter, isCacheEv]⟩
  · cases hf : f.fid with
    | none =>
      simp only [BaseRepositoryWithCache.findOne, hf]
      rfl
    | some i =>
      simp only [BaseRepositoryWithCache.findOne, hf]
      split <;> rfl
  · cases hf : f.fid with
    | none =>
      simp [BaseRepositoryWithCache.findOne, hf, BaseRepositoryWithCache.findOneRest,
        BaseRepository.findOne, List.filter, isCacheEv]
    | some i =>
      simp only [BaseRepositoryWithCache.findOne, hf]
      split
      · simp [BaseRepositoryWithCache.findById, BaseRepository.findById,
          List.filter, isCacheEv]
      · simp [BaseRepositoryWithCache.findOneRest, BaseRepository.findOne,
          List.filter, isCacheEv]

/-- C6: `addMany` partial-failure policy.  When the bulk insert fails with a
non-empty list of identifiable per-item write errors, it returns exactly the
input items whose ids are not among the failed ids and emits `add` exactly
for those; a failure with no identifiable per-item causes (`writeErrors`
absent or empty) is rethrown unchanged, with no items returned and no `add`
emitted. -/
theorem c6_addMany_partial_failure (st : RepoState) (items : List Entity)
    (err : BaseRepository.JsError) :
    (∀ ids, err.writeErrors = some ids → ids ≠ [] →
      (BaseRepository.addMany st items (some err)).1
        = .ok (items.filter fun i => !(ids.contains i._id)) ∧
      ((BaseRepository.addMany st items (some err)).2.2).filter isEmitAdd
        = (items.filter fun i => !(ids.contains i._id)).map Ev.emitAdd) ∧
    ((err.writeErrors = none ∨ err.writeErrors = some []) →
      (BaseRepository.addMany st items (some err)).1 = .error err ∧
      ((BaseRepository.addMany st items (some err)).2.2).filter isEmitAdd = []) := by
  constructor
  · intro ids hids hne
    have hlen : ids.length ≠ 0 := by
      simpa [List.length_eq_zero] using hne
    constructor
    · simp [BaseRepository.addMany, hids, hlen]
    · simp [BaseRepository.addMany, hids, hlen, List.filter, isEmitAdd,
        filter_isEmitAdd_map]
  · rintro (hw | hw) <;>
      simp [BaseRepository.addMany, hw, List.filter, isEmitAdd]

/-- C5: `dispose()` always clears the repository registry; with no session it
returns successfully with no further effect; with a session mid-transaction
its trace is exactly one abort followed by `endSession`; and an error
reported while ending the session is propagated to the caller. -/
theorem c5_dispose (s : UoWState) (endErr : Option String) :
    (UnitOfWork.dispose s endErr).2.1._repos = [] ∧
    (s._session = none →
      (UnitOfWork.dispose s endErr).1 = .ok () ∧
      (UnitOfWork.dispose s endErr).2.2 = []) ∧
    (∀ ss, s._session = some ss → ss.inTransaction = true →
      (UnitOfWork.dispose s endErr).2.2
        = [UEv.abortTransaction ss.sid, UEv.endSession ss.sid]) ∧
    (∀ ss m, s._session = some ss → endErr = some m →
      (UnitOfWork.dispose s endErr).1 = .error m) := by
  refine ⟨?_, ?_, ?_, ?_⟩
  · cases hs : s._session with
    | none => simp [UnitOfWork.dispose, hs]
    | some ss =>
      cases endErr <;>
        simp [UnitOfWork.dispose, hs, UnitOfWork.rollback] <;>
        split <;> simp
  · intro hs
    cases endErr <;> simp [UnitOfWork.dispose, hs]
  · intro ss hs htx
    cases endErr <;>
      simp [UnitOfWork.dispose, hs, htx, UnitOfWork.rollback]
  · intro ss m hs hm
    simp [UnitOfWork.dispose, hs, hm, UnitOfWork.rollback]

/-- A matching document carries the filter's direct id. -/
theorem matchesF_id (f : Filter) (e : Entity) (i : String)
    (hf : f.fid = some i) (hm : matchesF f e = true) : e._id = i := by
  simp only [matchesF, hf, Bool.and_eq_true, decide_eq_true_eq] at hm
  exact hm.1

/-- The document returned by the collection's `findOneAndUpdate` body carries
the filter's direct id. -/
theorem fouGo_id (f : Filter) (u : Update) (after : Bool) (i : String)
    (hf : f.fid = some i) :
    ∀ docs v, (fouGo f u after docs).1 = some v → v._id = i := by
  intro docs
  induction docs with
  | nil => intro v hv; simp [fouGo] at hv
  | cons d ds ih =>
    intro v hv
    by_cases hm : matchesF f d
    · simp only [fouGo, hm, if_true] at hv
      have hd : d._id = i := matchesF_id f d i hf hm
      rcases hv with hv
      cases haf : after <;> simp [haf] at hv <;>
        simp [← hv, applyUpdate, hd]
    · simp only [fouGo, hm] at hv
      exact ih v hv

/-- The document returned by `BaseRepository.findOneAndUpdate` (matched or
upserted) carries the filter's direct id. -/
theorem base_fou_id (st : RepoState) (f : Filter) (u : Update)
    (options : Option FindOneAndUpdateOption) (i : String) (hf : f.fid = some i) :
    ∀ v, (BaseRepository.findOneAndUpdate st f u options).1 = some v → v._id = i := by
  intro v hv
  simp only [BaseRepository.findOneAndUpdate] at hv
  rcases hgo : (fouGo f u (returnAfterOf options) st.docs) with ⟨r, docs'⟩
  rw [hgo] at hv
  cases r with
  | some w =>
    simp only at hv
    have hww : w = v := Option.some.inj hv
    subst hww
    exact fouGo_id f u (returnAfterOf options) i hf st.docs w (by simp [hgo])
  | none =>
    simp only at hv
    split at hv
    · split at hv
      · cases hv
        simp [applyUpdate, hf]
      · exact absurd hv (by simp)
    · exact absurd hv (by simp)

/-- C3: `findOneAndUpdate` on the cache decorator.  (a) A filter with a
direct id yields exactly one invalidation: `invalidateKey` of that id with
`localOnly = false`.  (b) When configured to return the post-update document
(`returnOriginal: false`) and a document is returned, `byId` holds that fresh
result after the call.  (c) With no direct id in the filter and no document
returned, no invalidation runs and both cache indices are untouched. -/
theorem c3_findOneAndUpdate_cache_protocol (st : RepoState) (f : Filter)
    (u : Update) (options : Option FindOneAndUpdateOption) :
    (∀ i, f.fid = some i →
      ((BaseRepositoryWithCache.findOneAndUpdate st f u options).2.2).filter isInvEv
        = [Ev.invKey i false]) ∧
    (∀ r, (BaseRepositoryWithCache.findOneAndUpdate st f u options).1 = some r →
      returnOriginalFalse options = true →
      lookupA (BaseRepositoryWithCache.findOneAndUpdate st f u options).2.1.byId r._id
        = some r) ∧
    (f.fid = none →
      (BaseRepositoryWithCache.findOneAndUpdate st f u options).1 = none →
      ((BaseRepositoryWithCache.findOneAndUpdate st f u options).2.2).filter isInvEv = [] ∧
      (BaseRepositoryWithCache.findOneAndUpdate st f u options).2.1.byId = st.byId ∧
      (BaseRepositoryWithCache.findOneAndUpdate st f u options).2.1.byQuery = st.byQuery) := by
  rcases hbase : BaseRepository.findOneAndUpdate st f u options with ⟨r0, st1, ev1⟩
  have hst1 : st1.byId = st.byId ∧ st1.byQuery = st.byQuery ∧ ev1 = [Ev.storeWrite] := by
    simp only [BaseRepository.findOneAndUpdate] at hbase
    rcases hgo : (fouGo f u (returnAfterOf options) st.docs) with ⟨r, docs'⟩
    rw [hgo] at hbase
    cases r <;> simp only at hbase
    · split at hbase <;> cases hbase <;> simp
    · cases hbase; simp
  refine ⟨?_, ?_, ?_⟩
  · intro i hf
    have hid := base_fou_id st f u options i hf
    rw [hbase] at hid
    simp only [BaseRepositoryWithCache.findOneAndUpdate, hbase]
    cases r0 with
    | some r =>
      have : r._id = i := hid r rfl
      subst this
      simp only [BaseRepositoryWithCache.invalidateKey, BaseRepositoryWithCache.cache]
      split <;> simp [hst1.2.2, List.filter, isInvEv]
    | none =>
      simp only [hf, BaseRepositoryWithCache.invalidateKey]
      simp [hst1.2.2, List.filter, isInvEv]
  · intro r hr hro
    simp only [BaseRepositoryWithCache.findOneAndUpdate, hbase] at hr ⊢
    cases r0 with
    | some w =>
      simp [BaseRepositoryWithCache.invalidateKey, BaseRepositoryWithCache.cache,
        hro] at hr ⊢
      subst hr
      simp [lookupA_setA_self]
    | none =>
      exfalso
      cases hff : f.fid <;>
        simp only [hff, BaseRepositoryWithCache.invalidateKey] at hr <;>
        exact Option.noConfusion hr
  · intro hf hr
    simp only [BaseRepositoryWithCache.findOneAndUpdate, hbase] at hr ⊢
    cases r0 with
    | some w => simp at hr
    | none =>
      simp only [hf]
      simp [hst1.1, hst1.2.1, hst1.2.2, List.filter, isInvEv]

/-- C1 counterexample: `findOne` with the non-id filter `{type:"a"}` on a
query-cache miss where the store returns the entity with id `"12"` stores the
`[(id, entity)]` pair under the serialized filter, but does **not** write the
`byId` index (the claim asserts it also stores the entity under `byId["12"]`). -/
theorem c1_counterexample :
    (BaseRepositoryWithCache.findOne
        { docs := [{ _id := "12", fields := [("type", "a")] }], byId := [], byQuery := [] }
        { fid := none, other := [("type", "a")] } none).1
      = some { _id := "12", fields := [("type", "a")] } ∧
    lookupA (BaseRepositoryWithCache.findOne
        { docs := [{ _id := "12", fields := [("type", "a")] }], byId := [], byQuery := [] }
        { fid := none, other := [("type", "a")] } none).2.1.byQuery
        (serializeFilter { fid := none, other := [("type", "a")] })
      = some [("12", { _id := "12", fields := [("type", "a")] })] ∧
    ¬ lookupA (BaseRepositoryWithCache.findOne
        { docs := [{ _id := "12", fields := [("type", "a")] }], byId := [], byQuery := [] }
        { fid := none, other := [("type", "a")] } none).2.1.byId "12"
      = some { _id := "12", fields := [("type", "a")] } := by
  refine ⟨by decide, by decide, by decide⟩

/-- C1 amended: for `findOne` with no projection on a filter that is not an
exact single-key id filter, a query-cache hit returns the first cached entry
with no store round-trip; on a miss where the store returns an entity with a
truthy id, the decorator stores `[(resultId, result)]` in the query cache
under the serialized filter — and leaves the `byId` index unchanged (it is
not populated by this path). -/
theorem c1_findOne_query_cache (st : RepoState) (f : Filter) (r : Entity)
    (hng : f.fid = none ∨ f.other ≠ []) :
    (∀ ql, lookupA st.byQuery (serializeFilter f) = some ql →
      BaseRepositoryWithCache.findOne st f none
        = ((ql.map Prod.snd).head?, st, [Ev.cacheGetQuery (serializeFilter f)])) ∧
    (lookupA st.byQuery (serializeFilter f) = none →
      st.docs.find? (matchesF f) = some r → r._id ≠ "" →
      (BaseRepositoryWithCache.findOne st f none).1 = some r ∧
      (BaseRepositoryWithCache.findOne st f none).2.1.byQuery
        = setA st.byQuery (serializeFilter f) [(r._id, r)] ∧
      (BaseRepositoryWithCache.findOne st f none).2.1.byId = st.byId) := by
  have hdeleg : BaseRepositoryWithCache.findOne st f none
      = BaseRepositoryWithCache.findOneRest st f none := by
    rcases hng with hng | hng
    · simp [BaseRepositoryWithCache.findOne, hng]
    · cases hf : f.fid with
      | none => simp [BaseRepositoryWithCache.findOne, hf]
      | some i => simp [BaseRepositoryWithCache.findOne, hf, hng]
  rw [hdeleg]
  constructor
  · intro ql hql
    simp [BaseRepositoryWithCache.findOneRest, hql]
  · intro hmiss hfind hid
    simp [BaseRepositoryWithCache.findOneRest, hmiss, BaseRepository.findOne,
      hfind, applyProjOpt, hid]

/-- The trace of the base `findOneAndUpdate` is a single store write. -/
theorem base_fou_trace (st : RepoState) (f : Filter) (u : Update)
    (options : Option FindOneAndUpdateOption) :
    (BaseRepository.findOneAndUpdate st f u options).2.2 = [Ev.storeWrite] := by
  simp only [BaseRepository.findOneAndUpdate]
  rcases hgo : fouGo f u (returnAfterOf options) st.docs with ⟨r, docs'⟩
  cases r with
  | some v => rfl
  | none =>
    simp only
    split <;> rfl

/-- The invalidations of one decorator `findOneAndUpdate` call: none, or a
single `invalidateKey` with `localOnly = false`. -/
theorem fou_trace_inv (st : RepoState) (f : Filter) (u : Update)
    (options : Option FindOneAndUpdateOption) :
    ((BaseRepositoryWithCache.findOneAndUpdate st f u options).2.2).filter isInvEv = []
    ∨ ∃ k, ((BaseRepositoryWithCache.findOneAndUpdate st f u options).2.2).filter isInvEv
        = [Ev.invKey k false] := by
  have htr := base_fou_trace st f u options
  rcases hbase : BaseRepository.findOneAndUpdate st f u options with ⟨r0, st1, ev1⟩
  rw [hbase] at htr
  simp only at htr
  simp only [BaseRepositoryWithCache.findOneAndUpdate, hbase]
  cases r0 with
  | some r =>
    right
    refine ⟨r._id, ?_⟩
    simp only [BaseRepositoryWithCache.invalidateKey, BaseRepositoryWithCache.cache]
    split <;> simp [htr, List.filter_append, List.filter, isInvEv]
  | none =>
    cases hf : f.fid with
    | some i =>
      right
      exact ⟨i, by simp [hf, BaseRepositoryWithCache.invalidateKey, htr,
        List.filter_append, List.filter, isInvEv]⟩
    | none =>
      left
      simp [hf, htr, List.filter, isInvEv]

/-- The invalidations of `patchBody` when the store mutation goes through the
decorator's overridden `findOneAndUpdate`: none, or a single `invalidateKey`
with `localOnly = false`. -/
theorem patchBody_trace_inv (st : RepoState) (f : Filter) (item : PartialEntity)
    (upsert : Bool) :
    ((BaseRepository.patchBody BaseRepositoryWithCache.findOneAndUpdate
        st f item upsert).2.2).filter isInvEv = []
    ∨ ∃ k, ((BaseRepository.patchBody BaseRepositoryWithCache.findOneAndUpdate
        st f item upsert).2.2).filter isInvEv = [Ev.invKey k false] := by
  simp only [BaseRepository.patchBody]
  split
  · left; rfl
  · have h := fou_trace_inv st f
      { set := BaseRepository.patchSet item, unset := BaseRepository.patchUnset item }
      (some (BaseRepository.patchOpts upsert))
    rcases hfou : BaseRepositoryWithCache.findOneAndUpdate st f
        { set := BaseRepository.patchSet item, unset := BaseRepository.patchUnset item }
        (some (BaseRepository.patchOpts upsert)) with ⟨res, stx, evx⟩
    rw [hfou] at h
    simp only at h
    cases res with
    | some r =>
      rcases h with h | ⟨k, h⟩
      · left; simp [List.filter_append, h, List.filter, isInvEv]
      · right; exact ⟨k, by simp [List.filter_append, h, List.filter, isInvEv]⟩
    | none => simpa using h

/-- `branchInv` is an invalidation event. -/
theorem branchInv_isInv (f : Filter) (item : PartialEntity) :
    isInvEv (branchInv f item) = true := by
  cases hf : f.fid with
  | some i => simp [branchInv, hf, isInvEv]
  | none =>
    cases hi : item._id with
    | some j => simp [branchInv, hf, hi, isInvEv]
    | none => simp [branchInv, hf, hi, isInvEv]

/-- C2 counterexample: `patch({_id:"7"}, {name:"x"})` on a repository whose
store holds the document `"7"`.  Because `super.patch` performs its store
mutation through the dynamically dispatched (overridden) `findOneAndUpdate`,
the call issues `invalidateKey("7", false)` **twice** — once up front in
`patch` and once after the store write inside `findOneAndUpdate` — so the
claimed "exactly one invalidateKey" is false. -/
theorem c2_counterexample :
    ((BaseRepositoryWithCache.patch
        { docs := [{ _id := "7", fields := [("name", "a")] }], byId := [], byQuery := [] }
        { fid := some "7", other := [] }
        { _id := none, fields := [("name", some "x")] } false).2.2).filter isInvEv
      = [Ev.invKey "7" false, Ev.invKey "7" false] ∧
    ¬ (((BaseRepositoryWithCache.patch
        { docs := [{ _id := "7", fields := [("name", "a")] }], byId := [], byQuery := [] }
        { fid := some "7", other := [] }
        { _id := none, fields := [("name", some "x")] } false).2.2).filter isInvEv).length
      = 1 := by
  refine ⟨by decide, by decide⟩

/-- C2 amended: every `patch` call issues its branch invalidation **first**
(the filter's string id, else the item's string id, else `invalidateAll`;
always `localOnly = false`), before any store mutation; because the store
mutation runs through the overridden `findOneAndUpdate`, at most one further
invalidation can follow it, and that one is always an `invalidateKey` with
`localOnly = false` (never a second `invalidateAll`). -/
theorem c2_patch_invalidation (st : RepoState) (f : Filter) (item : PartialEntity)
    (upsert : Bool) :
    ((BaseRepositoryWithCache.patch st f item upsert).2.2).head?
      = some (branchInv f item) ∧
    (((BaseRepositoryWithCache.patch st f item upsert).2.2).filter isInvEv).head?
      = some (branchInv f item) ∧
    (((BaseRepositoryWithCache.patch st f item upsert).2.2).filter isInvEv).length ≤ 2 ∧
    (∀ e ∈ (((BaseRepositoryWithCache.patch st f item upsert).2.2).filter isInvEv).tail,
      ∃ k, e = Ev.invKey k false) := by
  have hsplit : ∃ st1, BaseRepositoryWithCache.patch st f item upsert
      = ((BaseRepository.patchBody BaseRepositoryWithCache.findOneAndUpdate
            st1 f item upsert).1,
         (BaseRepository.patchBody BaseRepositoryWithCache.findOneAndUpdate
            st1 f item upsert).2.1,
         branchInv f item ::
           (BaseRepository.patchBody BaseRepositoryWithCache.findOneAndUpdate
              st1 f item upsert).2.2) := by
    cases hf : f.fid with
    | some i =>
      exact ⟨{ st with byId := eraseKey st.byId i },
        by simp [BaseRepositoryWithCache.patch, hf, BaseRepositoryWithCache.invalidateKey,
          branchInv]⟩
    | none =>
      cases hi : item._id with
      | some j =>
        exact ⟨{ st with byId := eraseKey st.byId j },
          by simp [BaseRepositoryWithCache.patch, hf, hi,
            BaseRepositoryWithCache.invalidateKey, branchInv]⟩
      | none =>
        exact ⟨{ st with byId := [], byQuery := [] },
          by simp [BaseRepositoryWithCache.patch, hf, hi,
            BaseRepositoryWithCache.invalidateAll, branchInv]⟩
  rcases hsplit with ⟨st1, hsplit⟩
  rw [hsplit]
  have hpb := patchBody_trace_inv st1 f item upsert
  have hbi := branchInv_isInv f item
  refine ⟨by simp, ?_, ?_, ?_⟩
  · simp [List.filter, hbi]
  · rcases hpb with h | ⟨k, h⟩ <;> simp [List.filter, hbi, h]
  · rcases hpb with h | ⟨k, h⟩ <;> simp [List.filter, hbi, h]

/-- Appending a fresh element keeps a list duplicate-free. -/
theorem nodup_append_single {α : Type} (l : List α) (a : α) (h : l.Nodup)
    (ha : a ∉ l) : (l ++ [a]).Nodup := by
  induction l with
  | nil => simp
  | cons x xs ih =>
    simp only [List.cons_append, List.nodup_cons] at h ⊢
    refine ⟨?_, ih h.2 (fun hm => ha (List.mem_cons_of_mem x hm))⟩
    intro hx
    rcases List.mem_append.mp hx with h1 | h2
    · exact h.1 h1
    · simp at h2
      subst h2
      exact ha (List.mem_cons_self _ _)

/-- After `getRepository`, the registry maps the call's key to the returned
instance. -/
theorem gr_lookup (s : UoWState) (nm : String) (wt : Bool) :
    lookupA (UnitOfWork.getRepository s nm wt).2.1._repos
        (nm ++ (if wt then "_w" else ""))
      = some (UnitOfWork.getRepository s nm wt).1 := by
  simp only [UnitOfWork.getRepository]
  generalize (nm ++ (if wt then "_w" else "")) = key
  rcases hl : lookupA s._repos key with _ | repo
  · cases wt with
    | false =>
      simp only [UnitOfWork.getSession, Bool.false_eq_true, if_false]
      rw [lookupA_append_none _ _ _ hl]
      simp [lookupA]
    | true =>
      cases hs : s._session with
      | none =>
        simp only [UnitOfWork.getSession, hs, if_true]
        rw [lookupA_append_none _ _ _ hl]
        simp [lookupA]
      | some ss =>
        simp only [UnitOfWork.getSession, hs, if_true]
        rw [lookupA_append_none _ _ _ hl]
        simp [lookupA]
  · simpa using hl

/-- `getRepository` preserves distinctness of the registry keys. -/
theorem gr_nodup (s : UoWState) (nm : String) (wt : Bool)
    (h : (s._repos.map Prod.fst).Nodup) :
    ((UnitOfWork.getRepository s nm wt).2.1._repos.map Prod.fst).Nodup := by
  simp only [UnitOfWork.getRepository]
  generalize (nm ++ (if wt then "_w" else "")) = key
  rcases hl : lookupA s._repos key with _ | repo
  · have hk := lookupA_none_not_mem _ _ hl
    cases wt with
    | false =>
      simp only [UnitOfWork.getSession, Bool.false_eq_true, if_false]
      simpa [List.map_append] using nodup_append_single _ key h hk
    | true =>
      cases hs : s._session with
      | none =>
        simp only [UnitOfWork.getSession, hs, if_true]
        simpa [List.map_append] using nodup_append_single _ key h hk
      | some ss =>
        simp only [UnitOfWork.getSession, hs, if_true]
        simpa [List.map_append] using nodup_append_single _ key h hk
  · simpa using h

/-- Registry keys stay distinct over any request sequence. -/
theorem runGets_nodup (reqs : List (String × Bool)) :
    ∀ s : UoWState, (s._repos.map Prod.fst).Nodup →
      ((UnitOfWork.runGets s reqs).1._repos.map Prod.fst).Nodup := by
  induction reqs with
  | nil => intro s h; simpa [UnitOfWork.runGets] using h
  | cons q rest ih =>
    rcases q with ⟨nm, wt⟩
    intro s h
    have h1 := gr_nodup s nm wt h
    simp only [UnitOfWork.runGets]
    rcases hg : UnitOfWork.getRepository s nm wt with ⟨r1, s1, tr1⟩
    rw [hg] at h1
    simp only at h1
    rcases hr : UnitOfWork.runGets s1 rest with ⟨s2, ev2⟩
    have h2 := ih s1 h1
    rw [hr] at h2
    simpa using h2

/-- C9: `getRepository` is memoized — a second call with the same arguments
returns the identical instance, leaves the state unchanged and performs no
factory invocation; and the registry never holds two entries for the same
key within one unit-of-work lifetime. -/
theorem c9_getRepository_memoized (s : UoWState) (nm : String) (wt : Bool)
    (reqs : List (String × Bool)) :
    (UnitOfWork.getRepository (UnitOfWork.getRepository s nm wt).2.1 nm wt).1
      = (UnitOfWork.getRepository s nm wt).1 ∧
    (UnitOfWork.getRepository (UnitOfWork.getRepository s nm wt).2.1 nm wt).2.1
      = (UnitOfWork.getRepository s nm wt).2.1 ∧
    (UnitOfWork.getRepository (UnitOfWork.getRepository s nm wt).2.1 nm wt).2.2 = [] ∧
    ((UnitOfWork.runGets uow0 reqs).1._repos.map Prod.fst).Nodup := by
  have hl := gr_lookup s nm wt
  rcases hfst : UnitOfWork.getRepository s nm wt with ⟨r1, s1, tr1⟩
  rw [hfst] at hl
  simp only at hl
  refine ⟨?_, ?_, ?_, runGets_nodup reqs uow0 (by simp [uow0])⟩ <;>
    simp [UnitOfWork.getRepository, hl]

theorem countU_append (p : UEv → Bool) (l1 l2 : List UEv) :
    countU p (l1 ++ l2) = countU p l1 + countU p l2 := by
  simp [countU, List.filter_append]

/-- One `getRepository` call: the session count rises exactly by the number
of `startSession` events it emits, and it emits as many `startTransaction`
events as `startSession` events. -/
theorem gr_sess_counts (s : UoWState) (nm : String) (wt : Bool) :
    sessN (UnitOfWork.getRepository s nm wt).2.1
      = sessN s + countU isStartSession (UnitOfWork.getRepository s nm wt).2.2 ∧
    countU isStartTransaction (UnitOfWork.getRepository s nm wt).2.2
      = countU isStartSession (UnitOfWork.getRepository s nm wt).2.2 := by
  simp only [UnitOfWork.getRepository]
  generalize (nm ++ (if wt then "_w" else "")) = key
  rcases hl : lookupA s._repos key with _ | repo
  · cases wt with
    | false =>
      simp [UnitOfWork.getSession, sessN, countU, List.filter, isStartSession,
        isStartTransaction]
    | true =>
      cases hs : s._session with
      | none =>
        simp [UnitOfWork.getSession, hs, sessN, countU, List.filter,
          isStartSession, isStartTransaction]
      | some ss =>
        simp [UnitOfWork.getSession, hs, sessN, countU, List.filter,
          isStartSession, isStartTransaction]
  · simp [sessN, countU]

/-- One `getRepository` call preserves `SessOK`. -/
theorem gr_sessOK (s : UoWState) (nm : String) (wt : Bool) (h : SessOK s) :
    SessOK (UnitOfWork.getRepository s nm wt).2.1 := by
  simp only [UnitOfWork.getRepository]
  generalize (nm ++ (if wt then "_w" else "")) = key
  rcases hl : lookupA s._repos key with _ | repo
  · cases wt with
    | false =>
      simp only [UnitOfWork.getSession, Bool.false_eq_true, if_false]
      intro p hp
      rcases List.mem_append.mp hp with hp | hp
      · exact h p hp
      · simp at hp
        subst hp
        left
        rfl
    | true =>
      cases hs : s._session with
      | none =>
        simp only [UnitOfWork.getSession, hs, if_true]
        intro p hp
        rcases List.mem_append.mp hp with hp | hp
        · rcases h p hp with h1 | ⟨ss, hss, _⟩
          · left; exact h1
          · rw [hs] at hss; exact Option.noConfusion hss
        · simp at hp
          subst hp
          right
          exact ⟨{ sid := s.nextSession, inTransaction := true }, rfl, rfl⟩
      | some ss =>
        simp only [UnitOfWork.getSession, hs, if_true]
        intro p hp
        rcases List.mem_append.mp hp with hp | hp
        · rcases h p hp with h1 | ⟨ss1, hss1, h2⟩
          · left; exact h1
          · right
            refine ⟨ss1, ?_, h2⟩
            rw [hs] at hss1
            simpa [hs] using hss1
        · simp at hp
          subst hp
          right
          exact ⟨ss, rfl, rfl⟩
  · simpa using h

/-- A non-transactional `getRepository` call leaves the session untouched and
emits no session events. -/
theorem gr_false_sess (s : UoWState) (nm : String) :
    (UnitOfWork.getRepository s nm false).2.1._session = s._session ∧
    countU isStartSession (UnitOfWork.getRepository s nm false).2.2 = 0 := by
  simp only [UnitOfWork.getRepository]
  generalize (nm ++ (if false then "_w" else "")) = key
  rcases hl : lookupA s._repos key with _ | repo <;>
    simp [countU, List.filter, isStartSession]

theorem runGets_sess_counts (reqs : List (String × Bool)) :
    ∀ s : UoWState,
      sessN (UnitOfWork.runGets s reqs).1
        = sessN s + countU isStartSession (UnitOfWork.runGets s reqs).2 ∧
      countU isStartTransaction (UnitOfWork.runGets s reqs).2
        = countU isStartSession (UnitOfWork.runGets s reqs).2 := by
  induction reqs with
  | nil => intro s; simp [UnitOfWork.runGets, countU, List.filter]
  | cons q rest ih =>
    rcases q with ⟨nm, wt⟩
    intro s
    have h1 := gr_sess_counts s nm wt
    simp only [UnitOfWork.runGets]
    rcases hg : UnitOfWork.getRepository s nm wt with ⟨r1, s1, tr1⟩
    rw [hg] at h1
    simp only at h1
    have h2 := ih s1
    rcases hr : UnitOfWork.runGets s1 rest with ⟨s2, ev2⟩
    rw [hr] at h2
    simp only at h2
    simp only [countU_append]
    constructor
    · omega
    · omega

theorem runGets_sessOK (reqs : List (String × Bool)) :
    ∀ s : UoWState, SessOK s → SessOK (UnitOfWork.runGets s reqs).1 := by
  induction reqs with
  | nil => intro s h; simpa [UnitOfWork.runGets] using h
  | cons q rest ih =>
    rcases q with ⟨nm, wt⟩
    intro s h
    have h1 := gr_sessOK s nm wt h
    simp only [UnitOfWork.runGets]
    rcases hg : UnitOfWork.getRepository s nm wt with ⟨r1, s1, tr1⟩
    rw [hg] at h1
    simp only at h1
    rcases hr : UnitOfWork.runGets s1 rest with ⟨s2, ev2⟩
    have h2 := ih s1 h1
    rw [hr] at h2
    simpa using h2

theorem runGets_all_false (reqs : List (String × Bool)) :
    ∀ s : UoWState, (∀ q ∈ reqs, q.2 = false) →
      (UnitOfWork.runGets s reqs).1._session = s._session ∧
      countU isStartSession (UnitOfWork.runGets s reqs).2 = 0 := by
  induction reqs with
  | nil => intro s _; simp [UnitOfWork.runGets, countU, List.filter]
  | cons q rest ih =>
    rcases q with ⟨nm, wt⟩
    intro s hall
    have hwt : wt = false := hall (nm, wt) (List.mem_cons_self _ _)
    subst hwt
    have h1 := gr_false_sess s nm
    simp only [UnitOfWork.runGets]
    rcases hg : UnitOfWork.getRepository s nm false with ⟨r1, s1, tr1⟩
    rw [hg] at h1
    simp only at h1
    have h2 := ih s1 (fun q hq => hall q (List.mem_cons_of_mem _ hq))
    rcases hr : UnitOfWork.runGets s1 rest with ⟨s2, ev2⟩
    rw [hr] at h2
    simp only at h2
    simp only [countU_append]
    exact ⟨h2.1.trans h1.1, by omega⟩

/-- C4: over any sequence of `getRepository` requests on a fresh unit of
work, at most one session is ever created, `startTransaction` runs exactly
once per created session (at creation), every registered repository that
holds a session holds the unit of work's single session by reference, and if
only non-transactional repositories are requested no session is created. -/
theorem c4_single_session (reqs : List (String × Bool)) :
    countU isStartSession (UnitOfWork.runGets uow0 reqs).2 ≤ 1 ∧
    countU isStartTransaction (UnitOfWork.runGets uow0 reqs).2
      = countU isStartSession (UnitOfWork.runGets uow0 reqs).2 ∧
    (∀ p ∈ (UnitOfWork.runGets uow0 reqs).1._repos,
      p.2.sessionId = none ∨
      ∃ ss, (UnitOfWork.runGets uow0 reqs).1._session = some ss ∧
        p.2.sessionId = some ss.sid) ∧
    ((∀ q ∈ reqs, q.2 = false) →
      (UnitOfWork.runGets uow0 reqs).1._session = none ∧
      countU isStartSession (UnitOfWork.runGets uow0 reqs).2 = 0) := by
  have hc := runGets_sess_counts reqs uow0
  have hok := runGets_sessOK reqs uow0 (by intro p hp; simp [uow0] at hp)
  have hbound : sessN (UnitOfWork.runGets uow0 reqs).1 ≤ 1 := by
    unfold sessN
    split <;> simp
  have h0 : sessN uow0 = 0 := rfl
  refine ⟨by omega, hc.2, hok, ?_⟩
  intro hall
  have h := runGets_all_false reqs uow0 hall
  exact ⟨by simpa [uow0] using h.1, h.2⟩

/-- C10: the registry key is built by string concatenation with a `"_w"`
suffix, so `getRepository(n + "_w", withTransaction: false)` and
`getRepository(n, withTransaction: true)` share one registry key.  Whichever
runs first constructs the instance and fixes its session mode; the other
returns the very same instance without touching the state.  In particular,
requesting `n + "_w"` non-transactionally first yields an instance holding no
session, which the later transactional request for `n` receives unchanged. -/
theorem c10_registry_key_collision (s : UoWState) (nm : String)
    (h : lookupA s._repos (nm ++ "_w") = none) :
    (UnitOfWork.getRepository
        (UnitOfWork.getRepository s (nm ++ "_w") false).2.1 nm true).1
      = (UnitOfWork.getRepository s (nm ++ "_w") false).1 ∧
    (UnitOfWork.getRepository
        (UnitOfWork.getRepository s (nm ++ "_w") false).2.1 nm true).2.1
      = (UnitOfWork.getRepository s (nm ++ "_w") false).2.1 ∧
    (UnitOfWork.getRepository s (nm ++ "_w") false).1.sessionId = none ∧
    (UnitOfWork.getRepository
        (UnitOfWork.getRepository s nm true).2.1 (nm ++ "_w") false).1
      = (UnitOfWork.getRepository s nm true).1 := by
  have hkey : (nm ++ "_w") ++ "" = nm ++ "_w" := by simp
  have hr1 : (UnitOfWork.getRepository s (nm ++ "_w") false).1.sessionId = none := by
    simp only [UnitOfWork.getRepository, Bool.false_eq_true, if_false]
    rw [hkey, h]
  have hl1 := gr_lookup s (nm ++ "_w") false
  simp only [Bool.false_eq_true, if_false] at hl1
  rw [hkey] at hl1
  have hl2 := gr_lookup s nm true
  simp only [if_true] at hl2
  refine ⟨?_, ?_, hr1, ?_⟩
  · rcases hfst : UnitOfWork.getRepository s (nm ++ "_w") false with ⟨r1, s1, tr1⟩
    rw [hfst] at hl1
    simp only at hl1
    simp [UnitOfWork.getRepository, hl1]
  · rcases hfst : UnitOfWork.getRepository s (nm ++ "_w") false with ⟨r1, s1, tr1⟩
    rw [hfst] at hl1
    simp only at hl1
    simp [UnitOfWork.getRepository, hl1]
  · rcases hsnd : UnitOfWork.getRepository s nm true with ⟨r2, s2, tr2⟩
    rw [hsnd] at hl2
    simp only at hl2
    simp [UnitOfWork.getRepository, hkey, hl2]

/-! ## Witnesses -/

/-- Witness for C1 (amended): the miss-and-populate branch at a concrete
state. -/
theorem c1_witness :
    (BaseRepositoryWithCache.findOne
        { docs := [{ _id := "12", fields := [("type", "a")] }], byId := [], byQuery := [] }
        { fid := none, other := [("type", "a")] } none).1
      = some { _id := "12", fields := [("type", "a")] } ∧
    (BaseRepositoryWithCache.findOne
        { docs := [{ _id := "12", fields := [("type", "a")] }], byId := [], byQuery := [] }
        { fid := none, other := [("type", "a")] } none).2.1.byQuery
      = setA [] (serializeFilter { fid := none, other := [("type", "a")] })
          [("12", { _id := "12", fields := [("type", "a")] })] ∧
    (BaseRepositoryWithCache.findOne
        { docs := [{ _id := "12", fields := [("type", "a")] }], byId := [], byQuery := [] }
        { fid := none, other := [("type", "a")] } none).2.1.byId = [] :=
  (c1_findOne_query_cache
      { docs := [{ _id := "12", fields := [("type", "a")] }], byId := [], byQuery := [] }
      { fid := none, other := [("type", "a")] }
      { _id := "12", fields := [("type", "a")] }
      (Or.inl rfl)).2 rfl (by decide) (by decide)

/-- Witness for C2 (amended) at a concrete `patch` call. -/
theorem c2_witness :
    ((BaseRepositoryWithCache.patch
        { docs := [{ _id := "7", fields := [("name", "a")] }], byId := [], byQuery := [] }
        { fid := some "7", other := [] }
        { _id := none, fields := [("name", some "x")] } false).2.2).head?
      = some (Ev.invKey "7" false) ∧
    (((BaseRepositoryWithCache.patch
        { docs := [{ _id := "7", fields := [("name", "a")] }], byId := [], byQuery := [] }
        { fid := some "7", other := [] }
        { _id := none, fields := [("name", some "x")] } false).2.2).filter isInvEv).head?
      = some (Ev.invKey "7" false) ∧
    (((BaseRepositoryWithCache.patch
        { docs := [{ _id := "7", fields := [("name", "a")] }], byId := [], byQuery := [] }
        { fid := some "7", other := [] }
        { _id := none, fields := [("name", some "x")] } false).2.2).filter isInvEv).length ≤ 2 :=
  ⟨(c2_patch_invalidation
      { docs := [{ _id := "7", fields := [("name", "a")] }], byId := [], byQuery := [] }
      { fid := some "7", other := [] }
      { _id := none, fields := [("name", some "x")] } false).1,
   (c2_patch_invalidation
      { docs := [{ _id := "7", fields := [("name", "a")] }], byId := [], byQuery := [] }
      { fid := some "7", other := [] }
      { _id := none, fields := [("name", some "x")] } false).2.1,
   (c2_patch_invalidation
      { docs := [{ _id := "7", fields := [("name", "a")] }], byId := [], byQuery := [] }
      { fid := some "7", other := [] }
      { _id := none, fields := [("name", some "x")] } false).2.2.1⟩

/-- Witness for C3 at concrete `findOneAndUpdate` calls exercising all three
conjuncts. -/
theorem c3_witness :
    ((BaseRepositoryWithCache.findOneAndUpdate
        { docs := [{ _id := "21", fields := [] }], byId := [], byQuery := [] }
        { fid := some "21", other := [] }
        { set := [("name", "hi")], unset := [] }
        (some { returnOriginal := some false, returnDocument := none,
                upsert := none })).2.2).filter isInvEv
      = [Ev.invKey "21" false] ∧
    lookupA (BaseRepositoryWithCache.findOneAndUpdate
        { docs := [{ _id := "21", fields := [] }], byId := [], byQuery := [] }
        { fid := some "21", other := [] }
        { set := [("name", "hi")], unset := [] }
        (some { returnOriginal := some false, returnDocument := none,
                upsert := none })).2.1.byId "21"
      = some { _id := "21", fields := [("name", "hi")] } ∧
    ((BaseRepositoryWithCache.findOneAndUpdate
        { docs := [{ _id := "21", fields := [] }], byId := [], byQuery := [] }
        { fid := none, other := [("zzz", "q")] }
        { set := [("name", "hi")], unset := [] }
        (some { returnOriginal := some false, returnDocument := none,
                upsert := none })).2.2).filter isInvEv
      = [] := by
  refine ⟨?_, ?_, ?_⟩
  · exact (c3_findOneAndUpdate_cache_protocol
      { docs := [{ _id := "21", fields := [] }], byId := [], byQuery := [] }
      { fid := some "21", other := [] }
      { set := [("name", "hi")], unset := [] }
      (some { returnOriginal := some false, returnDocument := none,
              upsert := none })).1 "21" rfl
  · exact (c3_findOneAndUpdate_cache_protocol
      { docs := [{ _id := "21", fields := [] }], byId := [], byQuery := [] }
      { fid := some "21", other := [] }
      { set := [("name", "hi")], unset := [] }
      (some { returnOriginal := some false, returnDocument := none,
              upsert := none })).2.1
      { _id := "21", fields := [("name", "hi")] } (by decide) (by decide)
  · exact ((c3_findOneAndUpdate_cache_protocol
      { docs := [{ _id := "21", fields := [] }], byId := [], byQuery := [] }
      { fid := none, other := [("zzz", "q")] }
      { set := [("name", "hi")], unset := [] }
      (some { returnOriginal := some false, returnDocument := none,
              upsert := none })).2.2 rfl (by decide)).1

/-- Witness for C4 at a concrete all-non-transactional request sequence. -/
theorem c4_witness :
    countU isStartSession (UnitOfWork.runGets uow0 [("a", false), ("b", false)]).2 ≤ 1 ∧
    countU isStartTransaction (UnitOfWork.runGets uow0 [("a", false), ("b", false)]).2
      = countU isStartSession (UnitOfWork.runGets uow0 [("a", false), ("b", false)]).2 ∧
    (UnitOfWork.runGets uow0 [("a", false), ("b", false)]).1._session = none ∧
    countU isStartSession (UnitOfWork.runGets uow0 [("a", false), ("b", false)]).2 = 0 :=
  ⟨(c4_single_session [("a", false), ("b", false)]).1,
   (c4_single_session [("a", false), ("b", false)]).2.1,
   ((c4_single_session [("a", false), ("b", false)]).2.2.2 (by decide)).1,
   ((c4_single_session [("a", false), ("b", false)]).2.2.2 (by decide)).2⟩

/-- Witness for C5: disposing a unit of work with an active transaction and a
failing `endSession`. -/
theorem c5_witness :
    (UnitOfWork.dispose
        { _repos := [("r_w", { instId := 0, name := "r", sessionId := some 5 })],
          _session := some { sid := 5, inTransaction := true },
          _options := { useTransactions := true }, nextSession := 6, nextInst := 1 }
        (some "boom")).2.1._repos = [] ∧
    (UnitOfWork.dispose
        { _repos := [("r_w", { instId := 0, name := "r", sessionId := some 5 })],
          _session := some { sid := 5, inTransaction := true },
          _options := { useTransactions := true }, nextSession := 6, nextInst := 1 }
        (some "boom")).2.2
      = [UEv.abortTransaction 5, UEv.endSession 5] ∧
    (UnitOfWork.dispose
        { _repos := [("r_w", { instId := 0, name := "r", sessionId := some 5 })],
          _session := some { sid := 5, inTransaction := true },
          _options := { useTransactions := true }, nextSession := 6, nextInst := 1 }
        (some "boom")).1 = .error "boom" :=
  ⟨(c5_dispose
      { _repos := [("r_w", { instId := 0, name := "r", sessionId := some 5 })],
        _session := some { sid := 5, inTransaction := true },
        _options := { useTransactions := true }, nextSession := 6, nextInst := 1 }
      (some "boom")).1,
   (c5_dispose
      { _repos := [("r_w", { instId := 0, name := "r", sessionId := some 5 })],
        _session := some { sid := 5, inTransaction := true },
        _options := { useTransactions := true }, nextSession := 6, nextInst := 1 }
      (some "boom")).2.2.1 { sid := 5, inTransaction := true } rfl rfl,
   (c5_dispose
      { _repos := [("r_w", { instId := 0, name := "r", sessionId := some 5 })],
        _session := some { sid := 5, inTransaction := true },
        _options := { useTransactions := true }, nextSession := 6, nextInst := 1 }
      (some "boom")).2.2.2 { sid := 5, inTransaction := true } "boom" rfl rfl⟩

/-- Witness for C6: the store rejects id `"19"` with an identifiable write
error; exactly `[{_id:"20"}]` is returned and announced. -/
theorem c6_witness :
    (BaseRepository.addMany { docs := [], byId := [], byQuery := [] }
        [{ _id := "19", fields := [] }, { _id := "20", fields := [] }]
        (some { writeErrors := some ["19"], msg := "bulk failure" })).1
      = .ok [{ _id := "20", fields := [] }] ∧
    ((BaseRepository.addMany { docs := [], byId := [], byQuery := [] }
        [{ _id := "19", fields := [] }, { _id := "20", fields := [] }]
        (some { writeErrors := some ["19"], msg := "bulk failure" })).2.2).filter isEmitAdd
      = [Ev.emitAdd { _id := "20", fields := [] }] := by
  have h := (c6_addMany_partial_failure { docs := [], byId := [], byQuery := [] }
      [{ _id := "19", fields := [] }, { _id := "20", fields := [] }]
      { writeErrors := some ["19"], msg := "bulk failure" }).1 ["19"] rfl (by decide)
  exact ⟨h.1.trans (by rfl), h.2.trans (by rfl)⟩

/-- Witness for C7 at a concrete `add` / `findById` pair. -/
theorem c7_witness :
    (BaseRepositoryWithCache.add { docs := [], byId := [], byQuery := [] }
        { _id := "1", fields := [] }).1 = { _id := "1", fields := [] } ∧
    (BaseRepositoryWithCache.findById
        (BaseRepositoryWithCache.add { docs := [], byId := [], byQuery := [] }
            { _id := "1", fields := [] }).2.1 "1" none).1
      = some { _id := "1", fields := [] } ∧
    ((BaseRepositoryWithCache.add { docs := [], byId := [], byQuery := [] }
          { _id := "1", fields := [] }).2.2
        ++ (BaseRepositoryWithCache.findById
              (BaseRepositoryWithCache.add { docs := [], byId := [], byQuery := [] }
                  { _id := "1", fields := [] }).2.1 "1" none).2.2).filter isStoreRead
      = [] :=
  c7_add_findById_roundtrip { docs := [], byId := [], byQuery := [] }
    { _id := "1", fields := [] }

/-- Witness for C8 at a concrete projected read. -/
theorem c8_witness :
    (BaseRepositoryWithCache.findOne
        { docs := [{ _id := "3", fields := [("a", "b")] }], byId := [], byQuery := [] }
        { fid := some "3", other := [] } (some ["a"])).2.1
      = { docs := [{ _id := "3", fields := [("a", "b")] }], byId := [], byQuery := [] } ∧
    ((BaseRepositoryWithCache.findOne
        { docs := [{ _id := "3", fields := [("a", "b")] }], byId := [], byQuery := [] }
        { fid := some "3", other := [] } (some ["a"])).2.2).filter isCacheEv = [] ∧
    (BaseRepositoryWithCache.findById
        { docs := [{ _id := "3", fields := [("a", "b")] }], byId := [], byQuery := [] }
        "3" (some ["a"])).2.1
      = { docs := [{ _id := "3", fields := [("a", "b")] }], byId := [], byQuery := [] } ∧
    ((BaseRepositoryWithCache.findById
        { docs := [{ _id := "3", fields := [("a", "b")] }], byId := [], byQuery := [] }
        "3" (some ["a"])).2.2).filter isCacheEv = [] ∧
    (BaseRepositoryWithCache.findMany
        { docs := [{ _id := "3", fields := [("a", "b")] }], byId := [], byQuery := [] }
        { fid := some "3", other := [] } (some ["a"])).2.1
      = { docs := [{ _id := "3", fields := [("a", "b")] }], byId := [], byQuery := [] } ∧
    ((BaseRepositoryWithCache.findMany
        { docs := [{ _id := "3", fields := [("a", "b")] }], byId := [], byQuery := [] }
        { fid := some "3", other := [] } (some ["a"])).2.2).filter isCacheEv = [] :=
  c8_projected_reads_bypass_cache
    { docs := [{ _id := "3", fields := [("a", "b")] }], byId := [], byQuery := [] }
    { fid := some "3", other := [] } "3" ["a"]

/-- Witness for C9 at concrete repeated requests. -/
theorem c9_witness :
    (UnitOfWork.getRepository (UnitOfWork.getRepository uow0 "a" true).2.1 "a" true).1
      = (UnitOfWork.getRepository uow0 "a" true).1 ∧
    (UnitOfWork.getRepository (UnitOfWork.getRepository uow0 "a" true).2.1 "a" true).2.1
      = (UnitOfWork.getRepository uow0 "a" true).2.1 ∧
    (UnitOfWork.getRepository (UnitOfWork.getRepository uow0 "a" true).2.1 "a" true).2.2
      = [] ∧
    ((UnitOfWork.runGets uow0 [("a", true), ("b", false)]).1._repos.map Prod.fst).Nodup :=
  c9_getRepository_memoized uow0 "a" true [("a", true), ("b", false)]

/-- Witness for C10 on a fresh unit of work with the colliding names
`"a_w"` and `"a"`. -/
theorem c10_witness :
    (UnitOfWork.getRepository
        (UnitOfWork.getRepository uow0 ("a" ++ "_w") false).2.1 "a" true).1
      = (UnitOfWork.getRepository uow0 ("a" ++ "_w") false).1 ∧
    (UnitOfWork.getRepository
        (UnitOfWork.getRepository uow0 ("a" ++ "_w") false).2.1 "a" true).2.1
      = (UnitOfWork.getRepository uow0 ("a" ++ "_w") false).2.1 ∧
    (UnitOfWork.getRepository uow0 ("a" ++ "_w") false).1.sessionId = none ∧
    (UnitOfWork.getRepository
        (UnitOfWork.getRepository uow0 "a" true).2.1 ("a" ++ "_w") false).1
      = (UnitOfWork.getRepository uow0 "a" true).1 :=
  c10_registry_key_collision uow0 "a" rfl

end MongoUow
